import Mathlib

/-!
Verification of the plyql CLI core (src/cli.ts): interval resolution,
transport decoration, and flag/query resolution inside the run function.

Dates are modelled as integers (milliseconds since the Unix epoch, UTC).
-/

set_option linter.unusedVariables false

namespace Plyql

/-! ## Calendar arithmetic (UTC)

Modelled from the spec: all instants are resolved in the UTC calendar for
duration arithmetic.  The civil-date conversions are the standard
era-based algorithms on the proleptic Gregorian calendar. -/

/-- Days since 1970-01-01 of the civil date (y, m, d), proleptic Gregorian. -/
def daysFromCivil (y m d : Int) : Int :=
  let yy : Int := if m ≤ 2 then y - 1 else y
  let era : Int := (if 0 ≤ yy then yy else yy - 399).tdiv 400
  let yoe : Int := yy - era * 400
  let mp : Int := (m + 9) % 12
  let doy : Int := (153 * mp + 2).tdiv 5 + d - 1
  let doe : Int := yoe * 365 + yoe.tdiv 4 - yoe.tdiv 100 + doy
  era * 146097 + doe - 719468

/-- Civil date (y, m, d) of a count of days since 1970-01-01. -/
def civilFromDays (z0 : Int) : Int × Int × Int :=
  let z : Int := z0 + 719468
  let era : Int := (if 0 ≤ z then z else z - 146096).tdiv 146097
  let doe : Int := z - era * 146097
  let yoe : Int := (doe - doe.tdiv 1460 + doe.tdiv 36524 - doe.tdiv 146096).tdiv 365
  let y : Int := yoe + era * 400
  let doy : Int := doe - (365 * yoe + yoe.tdiv 4 - yoe.tdiv 100)
  let mp : Int := (5 * doy + 2).tdiv 153
  let d : Int := doy - (153 * mp + 2).tdiv 5 + 1
  let m : Int := mp + (if mp < 10 then 3 else -9)
  ((if m ≤ 2 then y + 1 else y), m, d)

def msPerDay : Int := 86400000

/-- Split a character list on a separator character, the JavaScript
String.split semantics: the empty input splits to one empty part. -/
def splitOnChar (c : Char) : List Char → List (List Char)
  | [] => [[]]
  | x :: xs =>
    let r := splitOnChar c xs
    if x == c then [] :: r
    else match r with
      | h :: t => (x :: h) :: t
      | [] => [[x]]

/-- Digit run to Nat; none when empty or holding a non-digit. -/
def charsToNat (cs : List Char) : Option Nat :=
  if cs.length > 0 && cs.all Char.isDigit then
    some (cs.foldl (fun a c => a * 10 + (c.toNat - 48)) 0)
  else none

/-- Modelled from the spec: JavaScript Date parsing of an ISO-8601 UTC
instant (YYYY-MM-DDTHH:MM:SS(.mmm)?Z), as used on each instant side of an
interval string.  Returns the epoch millisecond value, none when the
string is not such an instant (JavaScript's Invalid Date). -/
def dateParseChars (cs : List Char) : Option Int :=
  match splitOnChar 'T' cs with
  | [ds, ts] =>
    (match splitOnChar '-' ds with
     | [ys, ms, dds] =>
       (match charsToNat ys, charsToNat ms, charsToNat dds with
        | some y, some mo, some da =>
          if 1 ≤ mo && mo ≤ 12 && 1 ≤ da && da ≤ 31 then
            if ts.getLast? == some 'Z' then
              let tcore := ts.dropLast
              let (hms, msec) :=
                match splitOnChar '.' tcore with
                | [a] => (a, some 0)
                | [a, b] => (a, if b.length == 3 then charsToNat b else none)
                | _ => (tcore, none)
              match splitOnChar ':' hms with
              | [hs, mins, ss] =>
                (match charsToNat hs, charsToNat mins, charsToNat ss, msec with
                 | some h, some mi, some sec, some mls =>
                   if h ≤ 23 && mi ≤ 59 && sec ≤ 59 then
                     some (daysFromCivil y mo da * msPerDay
                       + (h * 3600000 + mi * 60000 + sec * 1000 + mls : Nat))
                   else none
                 | _, _, _, _ => none)
              | _ => none
            else none
          else none
        | _, _, _ => none)
     | _ => none)
  | _ => none

/-- dateParseChars on the characters of a string. -/
def dateParse (s : String) : Option Int :=
  dateParseChars s.toList

/-- Left-pad a decimal rendering with zeros to width w. -/
def natPad (n : Nat) (w : Nat) : String :=
  let s := toString n
  if s.length < w then String.mk (List.replicate (w - s.length) '0') ++ s else s

/-- Modelled from the spec: JavaScript Date.toISOString, used when the
interval string has a single side and the other side defaults to now. -/
def isoString (t : Int) : String :=
  let days := t.fdiv msPerDay
  let msod := (t.fmod msPerDay).toNat
  let (y, m, d) := civilFromDays days
  natPad y.toNat 4 ++ "-" ++ natPad m.toNat 2 ++ "-" ++ natPad d.toNat 2 ++ "T"
    ++ natPad (msod / 3600000) 2 ++ ":" ++ natPad (msod % 3600000 / 60000) 2 ++ ":"
    ++ natPad (msod % 60000 / 1000) 2 ++ "." ++ natPad (msod % 1000) 3 ++ "Z"

/-! ## Durations (chronoshift model) -/

/-- The one timezone the CLI ever passes to duration arithmetic. -/
inductive Timezone
  | UTC
deriving Repr, DecidableEq

/-- Modelled from the spec: a chronoshift ISO-8601 duration, one span per
calendar unit. -/
structure Duration where
  years : Nat
  months : Nat
  weeks : Nat
  days : Nat
  hours : Nat
  minutes : Nat
  seconds : Nat
deriving Repr, DecidableEq

/-- Read an optional digit run followed by the unit letter u; yields 0 and
the untouched input when the unit is absent. -/
def readUnit (u : Char) (cs : List Char) : Nat × List Char :=
  let ds := cs.takeWhile Char.isDigit
  let rest := cs.dropWhile Char.isDigit
  if ds.isEmpty then (0, cs)
  else match rest with
    | c :: rest2 =>
      if c == u then (ds.foldl (fun a c => a * 10 + (c.toNat - 48)) 0, rest2) else (0, cs)
    | [] => (0, cs)

/-- Modelled from the spec: chronoshift Duration.fromJS on an ISO-8601
duration string P(nY)(nM)(nW)(nD)(T(nH)(nM)(nS)); none when the string is
not such a duration. -/
def durationFromJSChars (cs0 : List Char) : Option Duration :=
  match cs0 with
  | 'P' :: cs =>
    let (y, cs) := readUnit 'Y' cs
    let (mo, cs) := readUnit 'M' cs
    let (w, cs) := readUnit 'W' cs
    let (d, cs) := readUnit 'D' cs
    match cs with
    | [] =>
      if y + mo + w + d == 0 then none
      else some ⟨y, mo, w, d, 0, 0, 0⟩
    | 'T' :: cs =>
      let (h, cs) := readUnit 'H' cs
      let (mi, cs) := readUnit 'M' cs
      let (sec, cs) := readUnit 'S' cs
      match cs with
      | [] =>
        if y + mo + w + d + h + mi + sec == 0 then none
        else some ⟨y, mo, w, d, h, mi, sec⟩
      | _ => none
    | _ => none
  | _ => none

/-- durationFromJSChars on the characters of a string. -/
def durationFromJS (s : String) : Option Duration :=
  durationFromJSChars s.toList

def isLeap (y : Int) : Bool := y % 4 == 0 && (y % 100 != 0 || y % 400 == 0)

def daysInMonth (y m : Int) : Int :=
  if m == 2 then (if isLeap y then 29 else 28)
  else if m == 4 || m == 6 || m == 9 || m == 11 then 30
  else 31

/-- Shift an instant by n calendar months in UTC, clamping the day of
month to the target month's length. -/
def addMonths (t : Int) (n : Int) : Int :=
  let days := t.fdiv msPerDay
  let msod := t.fmod msPerDay
  let (y, m, d) := civilFromDays days
  let mm := y * 12 + (m - 1) + n
  let y2 := mm.fdiv 12
  let m2 := mm.fmod 12 + 1
  let d2 := min d (daysInMonth y2 m2)
  daysFromCivil y2 m2 d2 * msPerDay + msod

/-- Modelled from the spec: chronoshift Duration.move - shift an instant
by step copies of the duration in the UTC calendar (year and month spans
by calendar arithmetic, the fixed-length spans by their millisecond
count). -/
def Duration.move (dur : Duration) (t : Int) (tz : Timezone) (step : Int) : Int :=
  let afterMonths := addMonths t (step * (12 * (dur.years : Int) + dur.months))
  afterMonths + step * (((7 * (dur.weeks : Int) + dur.days) * msPerDay)
    + (dur.hours : Int) * 3600000 + (dur.minutes : Int) * 60000 + (dur.seconds : Int) * 1000)

/-! ## Interval resolution (parseIntervalString, cli.ts lines 67-90) -/

/-- A plywood TimeRange: start and end instants in epoch milliseconds. -/
structure TimeRange where
  start : Int
  end_ : Int
deriving Repr, DecidableEq

/-- Shallow embedding of parseIntervalString (cli.ts 67-90).  A thrown
JavaScript error is an Except.error.  In the branch where the left side
is an instant and the right side a duration, the source computes
end = duration.move(end, Timezone.UTC, 1) while the local variable end is
still null, so the move call throws a TypeError before any range is
built; that branch is embedded as the error it raises. -/
def parseIntervalString (now : Int) (str : String) : Except String TimeRange :=
  let parts := splitOnChar '/' str.toList
  if parts.length > 2 then .error ("Can not parse string " ++ str) else
  let p0 : List Char := parts.headD []
  let p1 : List Char := if parts.length == 2 then parts.getD 1 [] else (isoString now).toList
  if p0.headD ' ' == 'P' then
    match durationFromJSChars p0 with
    | none => .error ("Can not parse duration " ++ String.mk p0)
    | some duration =>
      match dateParseChars p1 with
      | none => .error "Invalid Date"
      | some e => .ok { start := duration.move e Timezone.UTC (-1), end_ := e }
  else if p1.headD ' ' == 'P' then
    match durationFromJSChars p1 with
    | none => .error ("Can not parse duration " ++ String.mk p1)
    | some duration => .error "TypeError: null is not a Date"
  else
    match dateParseChars p0, dateParseChars p1 with
    | some s, some e => .ok { start := s, end_ := e }
    | _, _ => .error "Invalid Date"

/-! ## The run function (cli.ts 130-346): flag resolution and transport
decoration -/

/-- The nopt output consumed by run: one field per flag the core reads.
A missing flag is none (respectively false, or the empty list for the
repeatable flags), mirroring an absent property on the parsed object. -/
structure ParsedOptions where
  verbose : Bool := false
  allow : List String := []
  forceUnique : List String := []
  forceHistogram : List String := []
  output : Option String := none
  druid : Option String := none
  host : Option String := none
  query : Option String := none
  dataSource : Option String := none
  timeout : Option Int := none
  retry : Option Int := none
  concurrent : Option Int := none
  interval : Option String := none
  skipCache : Bool := false
  introspectionStrategy : Option String := none
deriving Repr

/-- JavaScript truthiness of an optional string flag: present and
non-empty. -/
def truthy : Option String → Bool
  | none => false
  | some s => s != ""

/-- One attribute override entry as pushed by run (cli.ts 157-166). -/
structure AttributeOverride where
  name : String
  special : String
deriving Repr, DecidableEq

/-- The attribute-override list built by the two for-loops of cli.ts
157-166: one push per force-unique value, then one per force-histogram
value. -/
def attributeOverridesOf (forceUnique forceHistogram : List String) : List AttributeOverride :=
  let withUnique := forceUnique.foldl
    (fun acc n => acc ++ [{ name := n, special := "unique" }]) ([] : List AttributeOverride)
  forceHistogram.foldl
    (fun acc n => acc ++ [{ name := n, special := "histogram" }]) withUnique

/-- The decorated transport as a term: the bare druid requester and the
three optional wrapping layers, each recording the options it was built
with (cli.ts 223-251). -/
inductive Requester where
  | druid (host : String) (timeout : Int)
  | retryLayer (requester : Requester) (retryCount : Int) (delay : Int) (retryOnTimeout : Bool)
  | verboseLayer (requester : Requester)
  | concurrentLimit (requester : Requester) (limit : Int)
deriving Repr, DecidableEq

/-- The (retryCount, delay, retryOnTimeout) configuration of every retry
layer inside a decorated transport, outermost first. -/
def retryConfigs : Requester → List (Int × Int × Bool)
  | .druid _ _ => []
  | .retryLayer r c d t => (c, d, t) :: retryConfigs r
  | .verboseLayer r => retryConfigs r
  | .concurrentLimit r _ => retryConfigs r

/-- The output of the external SQL parser (Expression.parseSQL): a verb
string, an optional table name, and an expression of some opaque type. -/
structure SQLParse (α : Type) where
  verb : String
  table : Option String
  expression : α

/-- Everything run has resolved once it is ready to execute: the
decorated transport, the binding name and data source, the attribute
overrides, the validated output format, the timeout, the optional time
filter, and the parsed verb and expression. -/
structure RunResult (α : Type) where
  requester : Requester
  dataName : String
  dataSource : String
  attributeOverrides : List AttributeOverride
  output : String
  timeout : Int
  filter : Option TimeRange
  verb : String
  expression : α
  allowEternity : Bool
  allowSelectQueries : Bool

/-- JavaScript String.toLowerCase (ASCII suffices for the flags here). -/
def toLowerStr (s : String) : String :=
  String.mk (s.toList.map Char.toLower)

/-- The output-format whitelist check of cli.ts 170. -/
def validOutputFormat (o : String) : Bool :=
  o == "json" || o == "csv" || o == "tsv" || o == "flat"

/-- The lowercased output format of cli.ts 169: the output flag defaulted
with JavaScript truthiness, so a present-but-empty value is falsy and
falls back to json exactly like an absent flag. -/
def outputOf (opts : ParsedOptions) : String :=
  toLowerStr (if truthy opts.output then opts.output.getD "" else "json")

/-- Host resolution of cli.ts 176: the druid flag when truthy, else the
host flag. -/
def resolveHost (opts : ParsedOptions) : String :=
  if truthy opts.druid then opts.druid.getD "" else opts.host.getD ""

/-- The tail of run from cli.ts line 221 on, once the data source name
resolution of lines 209-219 has fixed dataName and dataSource: the
timeout default, the decorator chain of lines 223-251, the interval
filter of lines 253-267, and the resolved result. -/
def runWith {α : Type} (opts : ParsedOptions) (sqlParse : SQLParse α) (now : Int)
    (dataName dataSource : String) : Except String (RunResult α) :=
  let output := outputOf opts
  let host := resolveHost opts
  let timeout := opts.timeout.getD 60000
  let requester0 := Requester.druid host timeout
  let retry := opts.retry.getD 2
  let requester1 := if retry > 0 then Requester.retryLayer requester0 retry 500 false else requester0
  let requester2 := if opts.verbose then Requester.verboseLayer requester1 else requester1
  let concurrent := opts.concurrent.getD 2
  let requester := if concurrent > 0 then Requester.concurrentLimit requester2 concurrent else requester2
  let filterRes : Except String (Option TimeRange) :=
    if truthy opts.interval then
      match parseIntervalString now (opts.interval.getD "") with
      | .error e => .error ("Could not parse interval " ++ opts.interval.getD "")
      | .ok interval => .ok (some interval)
    else .ok none
  match filterRes with
  | .error e => .error e
  | .ok filter =>
    .ok { requester := requester, dataName := dataName, dataSource := dataSource,
          attributeOverrides := attributeOverridesOf opts.forceUnique opts.forceHistogram,
          output := output, timeout := timeout,
          filter := filter, verb := sqlParse.verb, expression := sqlParse.expression,
          allowEternity := opts.allow.contains "eternity",
          allowSelectQueries := opts.allow.contains "select" }

/-- Shallow embedding of the body of run (cli.ts 130-346) up to the point
where the query is handed to the external evaluation engine.  Every
console.log-and-return error path is an Except.error with the logged
message; the success value collects what run has resolved.  The external
SQL parser and the current time are parameters. -/
def run {α : Type} (opts : ParsedOptions)
    (parseSQL : String → Except String (SQLParse α)) (now : Int) :
    Except String (RunResult α) :=
  match opts.allow.find? (fun a => !(a == "eternity" || a == "select")) with
  | some a => .error ("Unexpected allow " ++ a)
  | none =>
  let output := outputOf opts
  if !(validOutputFormat output) then
    .error ("output must be one of json, csv, tsv, or flat (is " ++ output ++ "\x7d)")
  else
  let host := resolveHost opts
  if host == "" then .error "must have a host"
  else
  if !(truthy opts.query) then .error "no query found please use --query (-q) flag"
  else
  match parseSQL (opts.query.getD "") with
  | .error e => .error ("Could not parse query as SQL: " ++ e)
  | .ok sqlParse =>
  if !(sqlParse.verb == "SELECT" || sqlParse.verb == "DESCRIBE") then
    .error "SQL must be a SELECT or DESCRIBE query"
  else
  if truthy opts.dataSource then
    runWith opts sqlParse now "data" (opts.dataSource.getD "")
  else if truthy sqlParse.table then
    runWith opts sqlParse now (sqlParse.table.getD "") (sqlParse.table.getD "")
  else .error "must have data source"

/-- The decorated transport exactly as the spec words it: starting from
the bare transport, apply innermost-to-outermost the retry layer when
the retry count is positive, the verbose layer when the verbose flag is
set, and the concurrency-limiting layer when the limit is positive; a
value of 0 omits the corresponding layer. -/
def specDecoratedTransport (bare : Requester) (retry : Int) (verbose : Bool)
    (concurrent : Int) : Requester :=
  let afterRetry := if retry > 0 then Requester.retryLayer bare retry 500 false else bare
  let afterVerbose := if verbose then Requester.verboseLayer afterRetry else afterRetry
  if concurrent > 0 then Requester.concurrentLimit afterVerbose concurrent else afterVerbose

/-! ## Retry layer semantics

Modelled from the spec: helper.retryRequesterFactory is an external
plywood helper; the spec fixes its behaviour - on failure retry up to
the configured count of additional times, and when retryOnTimeout is
false a timeout is terminal and never retried. -/

/-- Outcome of one dispatch of the underlying transport. -/
inductive Outcome
  | success
  | failure
  | timeout
deriving Repr, DecidableEq

/-- Modelled from the spec: the number of dispatch attempts the retry
layer makes, given the remaining additional tries and the outcome of
each attempt (attempt i is transport i). -/
def retryDispatchCount (retryOnTimeout : Bool) (retriesLeft : Nat)
    (transport : Nat → Outcome) (i : Nat) : Nat :=
  match transport i, retriesLeft with
  | .success, _ => 1
  | .timeout, 0 => 1
  | .timeout, n + 1 =>
    if retryOnTimeout then 1 + retryDispatchCount retryOnTimeout n transport (i + 1) else 1
  | .failure, 0 => 1
  | .failure, n + 1 => 1 + retryDispatchCount retryOnTimeout n transport (i + 1)

/-- Concrete options for the success-path witnesses. -/
def optsW : ParsedOptions := { host := some "localhost", query := some "SELECT 1" }

/-- A parser stub answering with a fixed SELECT parse on the table bar. -/
def parseW : String → Except String (SQLParse Unit) :=
  fun _ => .ok { verb := "SELECT", table := some "bar", expression := () }

/-- The result run reaches on optsW and parseW. -/
def resW : RunResult Unit :=
  { requester := .concurrentLimit (.retryLayer (.druid "localhost" 60000) 2 500 false) 2,
    dataName := "bar", dataSource := "bar", attributeOverrides := [],
    output := "json", timeout := 60000, filter := none, verb := "SELECT",
    expression := (), allowEternity := false, allowSelectQueries := false }

/-- Options with an explicit data-source flag next to a query whose parse
names the table bar. -/
def optsDS : ParsedOptions :=
  { host := some "localhost", query := some "SELECT 1", dataSource := some "foo" }

/-- The result run reaches on optsDS and parseW. -/
def resDS : RunResult Unit :=
  { requester := .concurrentLimit (.retryLayer (.druid "localhost" 60000) 2 500 false) 2,
    dataName := "data", dataSource := "foo", attributeOverrides := [],
    output := "json", timeout := 60000, filter := none, verb := "SELECT",
    expression := (), allowEternity := false, allowSelectQueries := false }

/-- A parser stub whose parse names no table. -/
def parseNoTable : String → Except String (SQLParse Unit) :=
  fun _ => .ok { verb := "SELECT", table := none, expression := () }

/-! ## Theorems -/

theorem splitOnChar_length (c : Char) :
    ∀ cs : List Char, (splitOnChar c cs).length = cs.count c + 1 := by
  intro cs
  induction cs with
  | nil => simp [splitOnChar]
  | cons x xs ih =>
    unfold splitOnChar
    by_cases h : x == c
    · have hx : x = c := beq_iff_eq.mp h
      subst hx
      simp [ih, List.count_cons]
    · cases hr : splitOnChar c xs with
      | nil => rw [hr] at ih; simp at ih
      | cons r t =>
        rw [hr] at ih
        simp only [h, List.count_cons]
        simp only [beq_iff_eq] at h
        simp [Ne.symm h, ih.symm]

/-- C7: an interval string containing more than one slash (so splitting
into more than two parts) makes parseIntervalString fail with the parse
error, and no time range is produced. -/
theorem parseInterval_rejects_extra_slash (now : Int) (str : String)
    (h : 1 < str.toList.count '/') :
    parseIntervalString now str = .error ("Can not parse string " ++ str) := by
  simp only [parseIntervalString]
  split
  · rfl
  · next h2 =>
    rw [splitOnChar_length] at h2
    exact absurd h (by omega)

theorem parseInterval_rejects_extra_slash_witness :
    1 < "a/b/c".toList.count '/' ∧
      parseIntervalString 0 "a/b/c" = .error "Can not parse string a/b/c" :=
  ⟨by decide, parseInterval_rejects_extra_slash 0 "a/b/c" (by decide)⟩

/-- C6: for an interval string whose left side is a duration (leading P)
and whose right side is an instant - or, with only one side given, the
current time - parseIntervalString returns that instant as the range end
and the end moved backward by the duration in the UTC calendar as the
range start; in particular P1D/2024-01-02T00:00:00Z resolves to the range
from 2024-01-01T00:00:00Z to 2024-01-02T00:00:00Z. -/
theorem parseInterval_duration_then_instant :
    (∀ (now : Int) (str : String) (p0 p1 : List Char) (d : Duration) (e : Int),
      splitOnChar '/' str.toList = [p0, p1] →
      p0.headD ' ' = 'P' →
      durationFromJSChars p0 = some d →
      dateParseChars p1 = some e →
      parseIntervalString now str = .ok { start := d.move e Timezone.UTC (-1), end_ := e }) ∧
    (∀ (now : Int) (str : String) (p0 : List Char) (d : Duration),
      splitOnChar '/' str.toList = [p0] →
      p0.headD ' ' = 'P' →
      durationFromJSChars p0 = some d →
      dateParse (isoString now) = some now →
      parseIntervalString now str = .ok { start := d.move now Timezone.UTC (-1), end_ := now }) ∧
    parseIntervalString 0 "P1D/2024-01-02T00:00:00Z" =
      .ok { start := 1704067200000, end_ := 1704153600000 } ∧
    dateParse "2024-01-01T00:00:00Z" = some 1704067200000 ∧
    dateParse "2024-01-02T00:00:00Z" = some 1704153600000 := by
  refine ⟨?_, ?_, rfl, rfl, rfl⟩
  · intro now str p0 p1 d e hsplit hP hdur hdate
    cases p0 with
    | nil => simp [List.headD] at hP
    | cons c rest =>
      simp only [List.headD] at hP
      subst hP
      simp only [parseIntervalString]
      rw [hsplit]
      simp [hdur, hdate]
  · intro now str p0 d hsplit hP hdur hdate
    unfold dateParse at hdate
    cases p0 with
    | nil => simp [List.headD] at hP
    | cons c rest =>
      simp only [List.headD] at hP
      subst hP
      simp only [parseIntervalString]
      rw [hsplit]
      set q := (isoString now).toList with hq
      simp [hdur, hdate]

theorem parseInterval_duration_then_instant_witness :
    parseIntervalString 0 "P1D/2024-01-02T00:00:00Z" =
      .ok { start := 1704067200000, end_ := 1704153600000 } ∧
    parseIntervalString 1704240000000 "P1D" =
      .ok { start := 1704153600000, end_ := 1704240000000 } :=
  ⟨parseInterval_duration_then_instant.1 0 "P1D/2024-01-02T00:00:00Z" "P1D".toList
      "2024-01-02T00:00:00Z".toList ⟨0, 0, 0, 1, 0, 0, 0⟩ 1704153600000 rfl rfl rfl rfl,
   parseInterval_duration_then_instant.2.1 1704240000000 "P1D" "P1D".toList
      ⟨0, 0, 0, 1, 0, 0, 0⟩ rfl rfl rfl rfl⟩

/-- C1 (code defect): on an interval string whose left side is an instant
and whose right side is a duration, the source computes the range end by
moving the still-null end variable, so parseIntervalString throws instead
of returning the range from the left instant to left-plus-duration; at
the spec's own example input the call produces an error and no range. -/
theorem instant_duration_branch_throws :
    parseIntervalString 0 "2024-01-01T00:00:00Z/P1D" =
      .error "TypeError: null is not a Date" ∧
    dateParse "2024-01-01T00:00:00Z" = some 1704067200000 ∧
    dateParse "2024-01-02T00:00:00Z" = some 1704153600000 :=
  ⟨rfl, rfl, rfl⟩

theorem foldl_push {β : Type} (f : String → β) :
    ∀ (l : List String) (acc : List β),
      l.foldl (fun a n => a ++ [f n]) acc = acc ++ l.map f := by
  intro l
  induction l with
  | nil => simp
  | cons x xs ih => intro acc; simp [List.foldl_cons, ih]

/-- C8: the attribute-override list holds exactly one unique-kind entry
per force-unique value followed by one histogram-kind entry per
force-histogram value, keeping flag order and keeping duplicates. -/
theorem attributeOverrides_one_entry_per_flag (fu fh : List String) :
    attributeOverridesOf fu fh =
      fu.map (fun n => { name := n, special := "unique" }) ++
      fh.map (fun n => { name := n, special := "histogram" }) := by
  unfold attributeOverridesOf
  rw [foldl_push, foldl_push]
  simp

/-- C5: with valid allow flags, an output-format value (defaulted to json
and lowercased) outside json, csv, tsv, flat makes run fail with the
configuration error; the result is an error, so no transport is built and
nothing downstream (query parsing included, as parseSQL is arbitrary
here) is reached. -/
theorem run_rejects_bad_output {α : Type} (opts : ParsedOptions)
    (parseSQL : String → Except String (SQLParse α)) (now : Int)
    (hAllow : opts.allow.find? (fun a => !(a == "eternity" || a == "select")) = none)
    (hOut : validOutputFormat (outputOf opts) = false) :
    run opts parseSQL now =
      .error ("output must be one of json, csv, tsv, or flat (is "
        ++ outputOf opts ++ "\x7d)") := by
  simp only [run, hAllow]
  simp [hOut]

theorem run_rejects_bad_output_witness :
    run { output := some "XML" } (fun _ => Except.error "never reached" :
        String → Except String (SQLParse Unit)) 0 =
      .error "output must be one of json, csv, tsv, or flat (is xml\x7d)" :=
  run_rejects_bad_output { output := some "XML" } _ 0 rfl rfl

/-- C10: with valid allow flags and output format, when neither the druid
flag nor the host flag is supplied run fails with the host error; the
SQL parser is an arbitrary function here, so no query parsing, transport
construction or network activity can have happened. -/
theorem run_requires_host {α : Type} (opts : ParsedOptions)
    (parseSQL : String → Except String (SQLParse α)) (now : Int)
    (hAllow : opts.allow.find? (fun a => !(a == "eternity" || a == "select")) = none)
    (hOut : validOutputFormat (outputOf opts) = true)
    (hDruid : opts.druid = none) (hHost : opts.host = none) :
    run opts parseSQL now = .error "must have a host" := by
  simp only [run, hAllow]
  simp [hOut, resolveHost, hDruid, hHost, truthy]

theorem run_requires_host_witness :
    run { query := some "SELECT 1" } (fun _ => Except.error "never reached" :
        String → Except String (SQLParse Unit)) 0 = .error "must have a host" :=
  run_requires_host { query := some "SELECT 1" } _ 0 rfl rfl rfl rfl

/-- Invariants of every successful runWith result: the decorated
transport, the binding name, the data source, the attribute overrides
and the output format are the ones passed in or resolved from the
options. -/
theorem runWith_inv {α : Type} (opts : ParsedOptions) (sqlParse : SQLParse α) (now : Int)
    (dn ds : String) (res : RunResult α)
    (h : runWith opts sqlParse now dn ds = .ok res) :
    res.requester = specDecoratedTransport
      (Requester.druid (resolveHost opts) (opts.timeout.getD 60000))
      (opts.retry.getD 2) opts.verbose (opts.concurrent.getD 2) ∧
    res.dataName = dn ∧ res.dataSource = ds ∧
    res.attributeOverrides = attributeOverridesOf opts.forceUnique opts.forceHistogram ∧
    res.output = outputOf opts := by
  simp only [runWith] at h
  repeat' split at h
  all_goals try exact Except.noConfusion h
  all_goals rw [Except.ok.injEq] at h
  all_goals subst h
  all_goals refine ⟨?_, rfl, rfl, rfl, rfl⟩
  all_goals simp only [specDecoratedTransport]
  all_goals repeat' split
  all_goals first | rfl | omega

/-- C2: the decorated transport of every succeeding invocation is exactly
the bare druid transport wrapped, innermost to outermost, by the retry
layer when the retry count is positive, the verbose layer when the
verbose flag is set, and the concurrency-limiting layer when the limit is
positive - with a zero value omitting the layer, as the spec-side
composition specDecoratedTransport states. -/
theorem run_decorates_transport {α : Type} (opts : ParsedOptions)
    (parseSQL : String → Except String (SQLParse α)) (now : Int) (res : RunResult α)
    (h : run opts parseSQL now = .ok res) :
    res.requester = specDecoratedTransport
      (Requester.druid (resolveHost opts) (opts.timeout.getD 60000))
      (opts.retry.getD 2) opts.verbose (opts.concurrent.getD 2) := by
  simp only [run] at h
  repeat' split at h
  all_goals try exact Except.noConfusion h
  all_goals exact (runWith_inv _ _ _ _ _ _ h).1

theorem run_decorates_transport_witness :
    run optsW parseW 0 = .ok resW ∧
    resW.requester = specDecoratedTransport (Requester.druid "localhost" 60000) 2 false 2 :=
  ⟨rfl, run_decorates_transport optsW parseW 0 resW rfl⟩


/-- C4: under valid allow, output, host and query flags and a parsed
SELECT or DESCRIBE query, the data source is the data-source flag value
when that flag is truthy, else the query's table name when present, and
otherwise run fails with the must-have-data-source configuration error
and resolves nothing. -/
theorem run_resolves_data_source {α : Type} (opts : ParsedOptions)
    (parseSQL : String → Except String (SQLParse α)) (now : Int) (sqlParse : SQLParse α)
    (hAllow : opts.allow.find? (fun a => !(a == "eternity" || a == "select")) = none)
    (hOut : validOutputFormat (outputOf opts) = true)
    (hHost : (resolveHost opts == "") = false)
    (hQuery : truthy opts.query = true)
    (hParse : parseSQL (opts.query.getD "") = .ok sqlParse)
    (hVerb : sqlParse.verb = "SELECT" ∨ sqlParse.verb = "DESCRIBE") :
    (truthy opts.dataSource = true →
      ∀ res : RunResult α, run opts parseSQL now = .ok res →
        res.dataSource = opts.dataSource.getD "") ∧
    (truthy opts.dataSource = false → truthy sqlParse.table = true →
      ∀ res : RunResult α, run opts parseSQL now = .ok res →
        res.dataSource = sqlParse.table.getD "") ∧
    (truthy opts.dataSource = false → truthy sqlParse.table = false →
      run opts parseSQL now = .error "must have data source") := by
  refine ⟨?_, ?_, ?_⟩
  · intro hds res h
    rcases hVerb with hv | hv <;>
      simp only [run, hAllow, hParse] at h <;>
      simp [hOut, hHost, hQuery, hds, hv] at h <;>
      exact ((runWith_inv _ _ _ _ _ _ h).2.2.1)
  · intro hds htab res h
    rcases hVerb with hv | hv <;>
      simp only [run, hAllow, hParse] at h <;>
      simp [hOut, hHost, hQuery, hds, htab, hv] at h <;>
      exact ((runWith_inv _ _ _ _ _ _ h).2.2.1)
  · intro hds htab
    rcases hVerb with hv | hv <;>
      simp only [run, hAllow, hParse] <;>
      simp [hOut, hHost, hQuery, hds, htab, hv]

theorem run_resolves_data_source_witness :
    run optsDS parseW 0 = .ok resDS ∧ resDS.dataSource = "foo" ∧
    run { host := some "localhost", query := some "SELECT 1" } parseNoTable 0 =
      .error "must have data source" :=
  ⟨rfl,
   (run_resolves_data_source optsDS parseW 0
      { verb := "SELECT", table := some "bar", expression := () }
      rfl rfl rfl rfl rfl (Or.inl rfl)).1 rfl resDS rfl,
   (run_resolves_data_source { host := some "localhost", query := some "SELECT 1" }
      parseNoTable 0 { verb := "SELECT", table := none, expression := () }
      rfl rfl rfl rfl rfl (Or.inl rfl)).2.2 rfl rfl⟩

/-- C9: under the same valid-flag hypotheses, a truthy data-source flag
makes the binding name in the compute context the fixed placeholder
"data" whatever table the parse names, and with the flag absent the
parsed table name is the binding name. -/
theorem run_binding_name {α : Type} (opts : ParsedOptions)
    (parseSQL : String → Except String (SQLParse α)) (now : Int) (sqlParse : SQLParse α)
    (hAllow : opts.allow.find? (fun a => !(a == "eternity" || a == "select")) = none)
    (hOut : validOutputFormat (outputOf opts) = true)
    (hHost : (resolveHost opts == "") = false)
    (hQuery : truthy opts.query = true)
    (hParse : parseSQL (opts.query.getD "") = .ok sqlParse)
    (hVerb : sqlParse.verb = "SELECT" ∨ sqlParse.verb = "DESCRIBE") :
    (truthy opts.dataSource = true →
      ∀ res : RunResult α, run opts parseSQL now = .ok res → res.dataName = "data") ∧
    (truthy opts.dataSource = false → truthy sqlParse.table = true →
      ∀ res : RunResult α, run opts parseSQL now = .ok res →
        res.dataName = sqlParse.table.getD "") := by
  refine ⟨?_, ?_⟩
  · intro hds res h
    rcases hVerb with hv | hv <;>
      simp only [run, hAllow, hParse] at h <;>
      simp [hOut, hHost, hQuery, hds, hv] at h <;>
      exact ((runWith_inv _ _ _ _ _ _ h).2.1)
  · intro hds htab res h
    rcases hVerb with hv | hv <;>
      simp only [run, hAllow, hParse] at h <;>
      simp [hOut, hHost, hQuery, hds, htab, hv] at h <;>
      exact ((runWith_inv _ _ _ _ _ _ h).2.1)

theorem run_binding_name_witness :
    run optsDS parseW 0 = .ok resDS ∧ resDS.dataName = "data" ∧
    run optsW parseW 0 = .ok resW ∧ resW.dataName = "bar" :=
  ⟨rfl,
   (run_binding_name optsDS parseW 0
      { verb := "SELECT", table := some "bar", expression := () }
      rfl rfl rfl rfl rfl (Or.inl rfl)).1 rfl resDS rfl,
   rfl,
   (run_binding_name optsW parseW 0
      { verb := "SELECT", table := some "bar", expression := () }
      rfl rfl rfl rfl rfl (Or.inl rfl)).2 rfl rfl resW rfl⟩

/-- C3: the retry layer run configures never retries timeouts - under the
retryOnTimeout = false policy a transport that always times out is
dispatched exactly once whatever the retry count - while failures are
retried with at most the retry count of additional attempts; and every
retry layer inside a decorated transport run builds carries the
configured count, the fixed 500 ms delay and retryOnTimeout = false,
appearing exactly when the retry count is positive. -/
theorem retry_never_retries_timeout :
    (∀ (r : Nat) (transport : Nat → Outcome),
      (∀ i, transport i = .timeout) → retryDispatchCount false r transport 0 = 1) ∧
    (∀ (r : Nat) (transport : Nat → Outcome) (i : Nat),
      retryDispatchCount false r transport i ≤ r + 1) ∧
    (∀ (α : Type) (opts : ParsedOptions)
      (parseSQL : String → Except String (SQLParse α)) (now : Int) (res : RunResult α),
      run opts parseSQL now = .ok res →
      retryConfigs res.requester =
        if 0 < opts.retry.getD 2 then [(opts.retry.getD 2, 500, false)] else []) := by
  refine ⟨?_, ?_, ?_⟩
  · intro r transport hT
    cases r <;> simp [retryDispatchCount, hT]
  · intro r transport
    induction r with
    | zero =>
      intro i
      cases htr : transport i <;> simp [retryDispatchCount, htr]
    | succ n ih =>
      intro i
      cases htr : transport i with
      | success => simp [retryDispatchCount, htr]
      | timeout => simp [retryDispatchCount, htr]
      | failure =>
        simp only [retryDispatchCount, htr]
        have := ih (i + 1)
        omega
  · intro α opts parseSQL now res h
    simp only [run] at h
    repeat' split at h
    all_goals try exact Except.noConfusion h
    all_goals have hreq := (runWith_inv _ _ _ _ _ _ h).1
    all_goals rw [hreq]
    all_goals simp only [specDecoratedTransport]
    all_goals repeat' split
    all_goals simp_all [retryConfigs]

theorem retry_never_retries_timeout_witness :
    retryDispatchCount false 5 (fun _ => Outcome.timeout) 0 = 1 :=
  retry_never_retries_timeout.1 5 (fun _ => Outcome.timeout) (fun i => rfl)

end Plyql
